import Mathlib

/-!
Verification of the pipe-and-handle provider library (`src/lib.rs`).

The public surface in `src/lib.rs` consists of a `Pair` type (two owned
`File` endpoints) and five one-line functions (`pipe`, `parent_stdin`,
`parent_stdout`, `parent_stderr`, `stdio_from_file`) that delegate to a
compile-time-selected platform module `sys` (`unix.rs` on `not(windows)`,
`windows.rs` on `windows`).  The platform modules themselves are not part
of the available sources, so their behaviour is modelled from the spec:
one atomic create-non-inheritable strategy and one
duplicate-then-close-the-inheritable-original strategy, both acting on an
explicit OS state consisting of a per-process handle table and kernel pipe
objects.
-/

namespace OsPipe

/-- OS error: the underlying error code of a failed syscall. -/
abbrev OsError := Nat

/-- The OS error reported when a process standard stream handle is
invalid (closed or redirected to an invalid target). -/
def invalidHandleErr : OsError := 9

/-- What a handle-table entry refers to: one end of a kernel pipe object,
or a byte-stream object such as a console/file backing a stdio stream. -/
inductive Target
  | pipeRead (p : Nat)
  | pipeWrite (p : Nat)
  | streamObj (sid : Nat)
deriving DecidableEq, Repr

/-- A handle-table entry: the referenced kernel object plus the
inheritable flag (`HANDLE_FLAG_INHERIT` / absence of `FD_CLOEXEC`). -/
structure HEntry where
  target : Target
  inheritable : Bool
deriving DecidableEq, Repr

/-- A kernel pipe object: the buffered, not-yet-read bytes, and the
number of open write handles referring to it (duplicates included). -/
structure PipeObj where
  buffer : List Nat
  writers : Nat
deriving DecidableEq, Repr

/-- The OS state visible to one process: its handle table, the kernel
pipe objects, the stream objects (byte sinks/sources backing stdio), the
process's three standard stream handles, and fresh-id counters. -/
structure SysState where
  handles : List (Nat × HEntry)
  pipes : List (Nat × PipeObj)
  streams : List (Nat × List Nat)
  stdinH : Nat
  stdoutH : Nat
  stderrH : Nat
  nextHandle : Nat
  nextPipe : Nat
deriving DecidableEq, Repr

/-- Association-list lookup by numeric key. -/
def alookup {α : Type} (k : Nat) : List (Nat × α) → Option α
  | [] => none
  | e :: t => if e.1 = k then some e.2 else alookup k t

/-- Association-list in-place update of the value at a key. -/
def aupdate {α : Type} (k : Nat) (f : α → α) : List (Nat × α) → List (Nat × α)
  | [] => []
  | e :: t => if e.1 = k then (e.1, f e.2) :: t else e :: aupdate k f t

/-- Association-list removal of the entry at a key. -/
def aremove {α : Type} (k : Nat) : List (Nat × α) → List (Nat × α)
  | [] => []
  | e :: t => if e.1 = k then t else e :: aremove k t

/-- Well-formedness: every open handle id is below the fresh-handle
counter and every pipe id is below the fresh-pipe counter. -/
def WF (s : SysState) : Prop :=
  (s.handles.all fun e => e.1 < s.nextHandle) = true ∧
    (s.pipes.all fun e => e.1 < s.nextPipe) = true

instance : DecidablePred WF := fun s => by unfold WF; infer_instance

/-- The handles a child process spawned in state `s` would inherit by
default: exactly those whose inheritable flag is set. -/
def inheritedHandles (s : SysState) : List Nat :=
  (s.handles.filter fun e => e.2.inheritable).map (·.1)

/-- Allocate a fresh handle referring to `t` with inheritable flag
`inh`; a new write handle on a pipe increments that pipe's writer
count. -/
def allocHandle (t : Target) (inh : Bool) (s : SysState) : Nat × SysState :=
  let pipes2 :=
    match t with
    | .pipeWrite p => aupdate p (fun po => ⟨po.buffer, po.writers + 1⟩) s.pipes
    | _ => s.pipes
  (s.nextHandle,
    { s with handles := s.handles ++ [(s.nextHandle, ⟨t, inh⟩)],
             pipes := pipes2,
             nextHandle := s.nextHandle + 1 })

/-- Close a handle: remove its table entry; closing a write handle on a
pipe decrements that pipe's writer count.  The entry is released even
when the OS reports an error from the close call (the library ignores
such errors), so this state transformer is total. -/
def closeHandle (h : Nat) (s : SysState) : SysState :=
  match alookup h s.handles with
  | some ent =>
    let pipes2 :=
      match ent.target with
      | .pipeWrite p => aupdate p (fun po => ⟨po.buffer, po.writers - 1⟩) s.pipes
      | _ => s.pipes
    { s with handles := aremove h s.handles, pipes := pipes2 }
  | none => s

/-- A syscall, as recorded in an operation's trace.  A `close` records
whether the (ignored) close call itself reported failure. -/
inductive Syscall
  | pipeAtomic
  | pipeRaw
  | dup (src : Nat)
  | close (h : Nat) (failed : Bool)
deriving DecidableEq, Repr

/-- Outcomes the OS chooses for each fallible syscall of one operation:
`none` means success, `some e` failure with error `e`.  `closeErr` is
the (ignored) outcome of cleanup close calls. -/
structure Oracle where
  createErr : Option OsError
  dupReadErr : Option OsError
  dupWriteErr : Option OsError
  parentDupErr : Option OsError
  closeErr : Option OsError
deriving DecidableEq, Repr

/-- The result of one provider operation: the value or the surfaced OS
error, the post state, and the trace of syscalls performed. -/
abbrev OpRes (α : Type) := Except OsError α × SysState × List Syscall

/-- The pipe endpoint pair, mirroring `pub struct Pair { read, write }`
of `src/lib.rs`; each field is an owned handle. -/
structure Pair where
  read : Nat
  write : Nat
deriving DecidableEq, Repr

/-- An owned stdio handle (`std::process::Stdio` in the source): wraps
one owned handle usable for exactly one child stream slot. -/
structure StdioHandle where
  handle : Nat
deriving DecidableEq, Repr

/-- Modelled from the spec: the atomic platform strategy for
create-pipe-pair (missing platform module): a single primitive creates
the kernel pipe object and both endpoint handles already marked
non-inheritable; on failure nothing is left behind. -/
def atomicPipe (o : Oracle) (s : SysState) : OpRes Pair :=
  match o.createErr with
  | some e => (.error e, s, [.pipeAtomic])
  | none =>
    let p := s.nextPipe
    let s1 := { s with pipes := s.pipes ++ [(p, ⟨[], 0⟩)], nextPipe := p + 1 }
    let (hr, s2) := allocHandle (.pipeRead p) false s1
    let (hw, s3) := allocHandle (.pipeWrite p) false s2
    (.ok ⟨hr, hw⟩, s3, [.pipeAtomic])

/-- Modelled from the spec: the duplicate-then-close platform strategy
for create-pipe-pair (missing platform module): create the pipe with
default inheritable handles, duplicate each endpoint into a
non-inheritable handle, close the inheritable originals; on a failure
partway, close every handle created so far and return the original
error, ignoring close errors. -/
def dupClosePipe (o : Oracle) (s : SysState) : OpRes Pair :=
  let cf := o.closeErr.isSome
  match o.createErr with
  | some e => (.error e, s, [.pipeRaw])
  | none =>
    let p := s.nextPipe
    let s1 := { s with pipes := s.pipes ++ [(p, ⟨[], 0⟩)], nextPipe := p + 1 }
    let (hr, s2) := allocHandle (.pipeRead p) true s1
    let (hw, s3) := allocHandle (.pipeWrite p) true s2
    match o.dupReadErr with
    | some e =>
      (.error e, closeHandle hw (closeHandle hr s3),
        [.pipeRaw, .dup hr, .close hr cf, .close hw cf])
    | none =>
      let (hr2, s4) := allocHandle (.pipeRead p) false s3
      match o.dupWriteErr with
      | some e =>
        (.error e, closeHandle hr2 (closeHandle hw (closeHandle hr s4)),
          [.pipeRaw, .dup hr, .dup hw, .close hr cf, .close hw cf, .close hr2 cf])
      | none =>
        let (hw2, s5) := allocHandle (.pipeWrite p) false s4
        (.ok ⟨hr2, hw2⟩, closeHandle hw (closeHandle hr s5),
          [.pipeRaw, .dup hr, .dup hw, .close hr cf, .close hw cf])

/-- Modelled from the spec: wrap-parent-stdin/stdout/stderr (missing
platform module): duplicate the process's standard stream handle `h`
into a fresh non-inheritable handle, leaving the original untouched;
fail with the OS error when the stream handle is invalid or the
duplication fails. -/
def parentDup (h : Nat) (o : Oracle) (s : SysState) : OpRes StdioHandle :=
  match alookup h s.handles with
  | none => (.error invalidHandleErr, s, [])
  | some ent =>
    match o.parentDupErr with
    | some e => (.error e, s, [.dup h])
    | none =>
      let (h2, s2) := allocHandle ent.target false s
      (.ok ⟨h2⟩, s2, [.dup h])

/-- Modelled from the spec: wrap-byte-stream-handle (missing platform
module): a pure ownership transfer of the given owned handle into a
`StdioHandle` — no syscall, no failure path, no duplication. -/
def stdioFromFileSys (h : Nat) (s : SysState) : StdioHandle × SysState × List Syscall :=
  (⟨h⟩, s, [])

/-- The two build targets distinguished by the `cfg` attributes of
`src/lib.rs`: `#[cfg(not(windows))]` selects `unix.rs`, `#[cfg(windows)]`
selects `windows.rs`. -/
inductive Platform
  | unix
  | windows
deriving DecidableEq, Repr

/-- The `#[cfg(windows)]` condition on the `windows.rs` module, as a
predicate on the build-time flag. -/
def cfgWindows (w : Bool) : Bool := w

/-- The `#[cfg(not(windows))]` condition on the `unix.rs` module, as a
predicate on the build-time flag. -/
def cfgNotWindows (w : Bool) : Bool := !w

/-- The platform module chosen by the `cfg` attributes for a given value
of the build-time `windows` flag. -/
def selectPlatform (w : Bool) : Platform :=
  if cfgWindows w then .windows else .unix

/-- `sys::pipe`: the compile-time-selected platform realization of
create-pipe-pair.  Modelled from the spec: the platform with the atomic
primitive uses it; the other uses duplicate-then-close. -/
def sysPipe : Platform → Oracle → SysState → OpRes Pair
  | .unix => atomicPipe
  | .windows => dupClosePipe

/-- `sys::parent_stdin`: duplicate the process's stdin handle,
non-inheritable.  Both platform modules realize the same contract. -/
def sysParentStdin (_pl : Platform) (o : Oracle) (s : SysState) : OpRes StdioHandle :=
  parentDup s.stdinH o s

/-- `sys::parent_stdout`: duplicate the process's stdout handle,
non-inheritable. -/
def sysParentStdout (_pl : Platform) (o : Oracle) (s : SysState) : OpRes StdioHandle :=
  parentDup s.stdoutH o s

/-- `sys::parent_stderr`: duplicate the process's stderr handle,
non-inheritable. -/
def sysParentStderr (_pl : Platform) (o : Oracle) (s : SysState) : OpRes StdioHandle :=
  parentDup s.stderrH o s

/-- `sys::stdio_from_file`: platform realization of
wrap-byte-stream-handle. -/
def sysStdioFromFile (_pl : Platform) (h : Nat) (s : SysState) :
    StdioHandle × SysState × List Syscall :=
  stdioFromFileSys h s

/-- `pub fn pipe()` of `src/lib.rs`: delegates to `sys::pipe()`. -/
def pipe (pl : Platform) (o : Oracle) (s : SysState) : OpRes Pair :=
  sysPipe pl o s

/-- `pub fn parent_stdin()` of `src/lib.rs`: delegates to
`sys::parent_stdin()`. -/
def parent_stdin (pl : Platform) (o : Oracle) (s : SysState) : OpRes StdioHandle :=
  sysParentStdin pl o s

/-- `pub fn parent_stdout()` of `src/lib.rs`: delegates to
`sys::parent_stdout()`. -/
def parent_stdout (pl : Platform) (o : Oracle) (s : SysState) : OpRes StdioHandle :=
  sysParentStdout pl o s

/-- `pub fn parent_stderr()` of `src/lib.rs`: delegates to
`sys::parent_stderr()`. -/
def parent_stderr (pl : Platform) (o : Oracle) (s : SysState) : OpRes StdioHandle :=
  sysParentStderr pl o s

/-- `pub fn stdio_from_file(file)` of `src/lib.rs`: delegates to
`sys::stdio_from_file(file)`; returns a `Stdio`, not a `Result`. -/
def stdio_from_file (pl : Platform) (h : Nat) (s : SysState) :
    StdioHandle × SysState × List Syscall :=
  sysStdioFromFile pl h s

/-- Modelled from the spec: writing bytes through a handle.  A write
handle on a pipe appends the bytes to the kernel pipe buffer; a handle
on a stream object appends to that stream; any other handle (absent, or
the read end of a pipe) is not writable. -/
def writeVia (h : Nat) (bs : List Nat) (s : SysState) : Option SysState :=
  match alookup h s.handles with
  | some ⟨.pipeWrite p, _⟩ =>
    some { s with pipes := aupdate p (fun po => ⟨po.buffer ++ bs, po.writers⟩) s.pipes }
  | some ⟨.streamObj sid, _⟩ =>
    some { s with streams := aupdate sid (· ++ bs) s.streams }
  | _ => none

/-- Perform a sequence of writes through one handle, in order. -/
def writeAll (h : Nat) : List (List Nat) → SysState → Option SysState
  | [], s => some s
  | bs :: rest, s =>
    match writeVia h bs s with
    | some s2 => writeAll h rest s2
    | none => none

/-- Modelled from the spec: reading a kernel pipe object to
end-of-stream in chunks of `c + 1` bytes.  A read on an empty buffer
returns end-of-stream when no write handle is open, and otherwise
blocks (modelled as `none`). -/
def pipeReadToEnd (c : Nat) (po : PipeObj) : Option (List Nat) :=
  match hb : po.buffer with
  | [] => if po.writers = 0 then some [] else none
  | x :: t =>
    match pipeReadToEnd c ⟨(x :: t).drop (c + 1), po.writers⟩ with
    | some rest => some ((x :: t).take (c + 1) ++ rest)
    | none => none
termination_by po.buffer.length
decreasing_by
  simp [hb, List.length_drop]
  omega

/-- Reading to end-of-stream through a read handle on a pipe. -/
def readEndToEnd (c : Nat) (h : Nat) (s : SysState) : Option (List Nat) :=
  match alookup h s.handles with
  | some ⟨.pipeRead p, _⟩ =>
    match alookup p s.pipes with
    | some po => pipeReadToEnd c po
    | none => none
  | _ => none

/-- What a successful create-pipe-pair call observably produces,
shared by both platform strategies: a pair of two distinct fresh
handles, one read end and one write end of the same fresh kernel pipe
(empty buffer, exactly one open writer), both non-inheritable — so
neither endpoint is inherited by a child spawned afterwards — with
every pre-existing handle, the stream objects, and the process's stdio
designations untouched. -/
structure PipeSpec (s : SysState) (pr : Pair) (s' : SysState) : Prop where
  read_fresh : s.nextHandle ≤ pr.read
  write_fresh : s.nextHandle ≤ pr.write
  ne : pr.read ≠ pr.write
  read_entry : alookup pr.read s'.handles = some ⟨.pipeRead s.nextPipe, false⟩
  write_entry : alookup pr.write s'.handles = some ⟨.pipeWrite s.nextPipe, false⟩
  pipe_obj : alookup s.nextPipe s'.pipes = some ⟨[], 1⟩
  old_handles : ∀ k, k < s.nextHandle → alookup k s'.handles = alookup k s.handles
  read_ni : pr.read ∉ inheritedHandles s'
  write_ni : pr.write ∉ inheritedHandles s'
  streams_eq : s'.streams = s.streams
  stdin_eq : s'.stdinH = s.stdinH
  stdout_eq : s'.stdoutH = s.stdoutH
  stderr_eq : s'.stderrH = s.stderrH

/-- The shared observable contract of create-pipe-pair that both
platform strategies must realize: success yields `PipeSpec`, and
failure leaves the handle table and stream objects exactly as they
were. -/
def MeetsPipeContract (impl : Oracle → SysState → OpRes Pair) : Prop :=
  ∀ o s, WF s →
    (∀ pr s' tr, impl o s = (.ok pr, s', tr) → PipeSpec s pr s') ∧
    (∀ e s' tr, impl o s = (.error e, s', tr) →
      s'.handles = s.handles ∧ s'.streams = s.streams)

/-- The creation/duplication syscalls of a trace (cleanup closes
removed): the attempts that must never be retried. -/
def attempts : List Syscall → List Syscall
  | [] => []
  | .close _ _ :: tr => attempts tr
  | sc :: tr => sc :: attempts tr

/-- What C9 requires of wrapping a parent standard stream handle
`hnd`: the parent's own entry is untouched, stream objects are
untouched, the result is a distinct duplicate handle referring to the
same target with the inheritable flag clear, every pre-existing handle
is untouched, and a subsequent parent write through `hnd` produces the
same stream contents as it would have before the call. -/
def ParentFrame (s : SysState) (hnd : Nat) (d : StdioHandle)
    (s' : SysState) : Prop :=
  alookup hnd s'.handles = alookup hnd s.handles ∧
    s'.streams = s.streams ∧
    d.handle ≠ hnd ∧
    (∀ ent, alookup hnd s.handles = some ent →
      alookup d.handle s'.handles = some ⟨ent.target, false⟩) ∧
    (∀ k, k < s.nextHandle → alookup k s'.handles = alookup k s.handles) ∧
    (∀ bs s2, writeVia hnd bs s' = some s2 →
      ∃ s3, writeVia hnd bs s = some s3 ∧ s2.streams = s3.streams)

/-- A concrete well-formed process state: three inheritable stdio
handles on three stream objects, no pipes yet. -/
def st0 : SysState :=
  { handles := [(0, ⟨.streamObj 0, true⟩), (1, ⟨.streamObj 1, true⟩),
                (2, ⟨.streamObj 2, true⟩)],
    pipes := [],
    streams := [(0, []), (1, []), (2, [])],
    stdinH := 0, stdoutH := 1, stderrH := 2,
    nextHandle := 3, nextPipe := 0 }

/-- The all-success oracle. -/
def okOracle : Oracle := ⟨none, none, none, none, none⟩

/-- An oracle under which duplicating the read endpoint fails with OS
error 24 and the cleanup close calls themselves report failure. -/
def dupFailOracle : Oracle := ⟨none, some 24, none, none, some 9⟩

/-- A concrete state holding a pipe with buffered bytes and no open
writer. -/
def stEof : SysState :=
  { handles := [(0, ⟨.pipeRead 0, false⟩)],
    pipes := [(0, ⟨[7, 8], 0⟩)],
    streams := [],
    stdinH := 0, stdoutH := 0, stderrH := 0,
    nextHandle := 1, nextPipe := 1 }

/-! ### Association-list lemmas -/

theorem alookup_cons_self {α : Type} (k : Nat) (v : α) (t : List (Nat × α)) :
    alookup k ((k, v) :: t) = some v := by
  simp [alookup]

theorem alookup_cons_ne {α : Type} {k k' : Nat} (v : α) (t : List (Nat × α))
    (h : k' ≠ k) : alookup k ((k', v) :: t) = alookup k t := by
  simp [alookup, h]

theorem alookup_append_left {α : Type} {k : Nat} {l : List (Nat × α)} {v : α}
    (m : List (Nat × α)) (h : alookup k l = some v) :
    alookup k (l ++ m) = some v := by
  induction l with
  | nil => simp [alookup] at h
  | cons e t ih =>
    by_cases he : e.1 = k
    · simpa [alookup, he] using h
    · simp only [alookup, he, if_false, List.cons_append] at h ⊢
      exact ih h

theorem alookup_append_right {α : Type} {k : Nat} {l : List (Nat × α)}
    (m : List (Nat × α)) (h : alookup k l = none) :
    alookup k (l ++ m) = alookup k m := by
  induction l with
  | nil => simp
  | cons e t ih =>
    by_cases he : e.1 = k
    · simp [alookup, he] at h
    · simp only [alookup, he, if_false, List.cons_append] at h ⊢
      exact ih h

theorem alookup_none_of_all_lt {α : Type} {l : List (Nat × α)} {n k : Nat}
    (hall : (l.all fun e => e.1 < n) = true) (hk : n ≤ k) :
    alookup k l = none := by
  induction l with
  | nil => rfl
  | cons e t ih =>
    simp only [List.all_cons, Bool.and_eq_true, decide_eq_true_eq] at hall
    have he : e.1 ≠ k := by omega
    simp only [alookup, he, if_false]
    exact ih hall.2

theorem alookup_aremove_ne {α : Type} {k h : Nat} (l : List (Nat × α))
    (hne : k ≠ h) : alookup k (aremove h l) = alookup k l := by
  induction l with
  | nil => rfl
  | cons e t ih =>
    by_cases he : e.1 = h
    · have : e.1 ≠ k := by omega
      simp [aremove, alookup, he, this, Ne.symm hne]
    · by_cases hek : e.1 = k
      · simp [aremove, alookup, he, hek, hne]
      · simp [aremove, alookup, he, hek, ih]

theorem aremove_fresh_append {α : Type} {k : Nat} {l : List (Nat × α)}
    (m : List (Nat × α)) (h : alookup k l = none) :
    aremove k (l ++ m) = l ++ aremove k m := by
  induction l with
  | nil => simp
  | cons e t ih =>
    by_cases he : e.1 = k
    · simp [alookup, he] at h
    · simp only [alookup, he, if_false] at h
      simp [aremove, he, ih h]

theorem aupdate_fresh_append {α : Type} {k : Nat} {l : List (Nat × α)}
    (f : α → α) (m : List (Nat × α)) (h : alookup k l = none) :
    aupdate k f (l ++ m) = l ++ aupdate k f m := by
  induction l with
  | nil => simp
  | cons e t ih =>
    by_cases he : e.1 = k
    · simp [alookup, he] at h
    · simp only [alookup, he, if_false] at h
      simp [aupdate, he, ih h]

theorem alookup_aupdate_self {α : Type} (k : Nat) (f : α → α)
    (l : List (Nat × α)) :
    alookup k (aupdate k f l) = (alookup k l).map f := by
  induction l with
  | nil => rfl
  | cons e t ih =>
    by_cases he : e.1 = k
    · simp [aupdate, alookup, he]
    · simp [aupdate, alookup, he, ih]

theorem alookup_aupdate_ne {α : Type} {k k' : Nat} (f : α → α)
    (l : List (Nat × α)) (h : k ≠ k') :
    alookup k (aupdate k' f l) = alookup k l := by
  induction l with
  | nil => rfl
  | cons e t ih =>
    by_cases he : e.1 = k'
    · have : e.1 ≠ k := by omega
      simp [aupdate, alookup, he, this, Ne.symm h]
    · by_cases hek : e.1 = k
      · simp [aupdate, alookup, he, hek, h]
      · simp [aupdate, alookup, he, hek, ih]

theorem not_mem_keys_filter {α : Type} {l : List (Nat × α)} {n k : Nat}
    (hall : (l.all fun e => e.1 < n) = true) (hk : n ≤ k)
    (q : (Nat × α) → Bool) : k ∉ (l.filter q).map (·.1) := by
  intro hmem
  obtain ⟨e, he, hk'⟩ := List.mem_map.mp hmem
  have h1 : e ∈ l := (List.mem_filter.mp he).1
  have h2 := List.all_eq_true.mp hall e h1
  simp only [decide_eq_true_eq] at h2
  omega

/-! ### Pipe byte-stream lemmas -/

theorem pipeReadToEnd_bounded (c : Nat) :
    ∀ (n : Nat) (b : List Nat), b.length ≤ n →
      pipeReadToEnd c ⟨b, 0⟩ = some b := by
  intro n
  induction n with
  | zero =>
    intro b hb
    have hb0 : b = [] := List.length_eq_zero.mp (Nat.le_zero.mp hb)
    subst hb0
    simp [pipeReadToEnd]
  | succ n ih =>
    intro b hb
    match b with
    | [] => simp [pipeReadToEnd]
    | x :: t =>
      have hlen : ((x :: t).drop (c + 1)).length ≤ n := by
        simp only [List.length_drop, List.length_cons] at *
        omega
      rw [pipeReadToEnd]
      simp only [ih _ hlen]
      simp

/-- With no open write handle, reading a pipe to end-of-stream never
blocks: it returns exactly the buffered bytes. -/
theorem pipeReadToEnd_writers_zero (c : Nat) (po : PipeObj)
    (hw : po.writers = 0) : pipeReadToEnd c po = some po.buffer := by
  obtain ⟨b, w⟩ := po
  simp only at hw
  subst hw
  exact pipeReadToEnd_bounded c b.length b le_rfl

/-- Writing a sequence of byte chunks through a write handle on a pipe:
every write succeeds, the handle table and stream objects are
untouched, and the chunks are appended to the pipe buffer in order. -/
theorem writeAll_pipe {h p : Nat} {fl : Bool} :
    ∀ (B : List (List Nat)) (s : SysState) (buf : List Nat) (w : Nat),
      alookup h s.handles = some ⟨.pipeWrite p, fl⟩ →
      alookup p s.pipes = some ⟨buf, w⟩ →
      ∃ s2, writeAll h B s = some s2 ∧
        s2.handles = s.handles ∧ s2.streams = s.streams ∧
        alookup p s2.pipes = some ⟨buf ++ B.flatten, w⟩ := by
  intro B
  induction B with
  | nil =>
    intro s buf w hh hp
    exact ⟨s, rfl, rfl, rfl, by simp [hp]⟩
  | cons bs rest ih =>
    intro s buf w hh hp
    have hstep : writeVia h bs s =
        some { s with
                pipes := aupdate p (fun po => ⟨po.buffer ++ bs, po.writers⟩) s.pipes } := by
      unfold writeVia
      rw [hh]
    have hp2 : alookup p (aupdate p
        (fun po => ⟨po.buffer ++ bs, po.writers⟩) s.pipes) = some ⟨buf ++ bs, w⟩ := by
      rw [alookup_aupdate_self, hp]
      rfl
    obtain ⟨s2, hrun, hhs, hss, hps⟩ := ih
      { s with pipes := aupdate p (fun po => ⟨po.buffer ++ bs, po.writers⟩) s.pipes }
      (buf ++ bs) w hh hp2
    refine ⟨s2, ?_, hhs, hss, ?_⟩
    · unfold writeAll
      simp only [hstep]
      exact hrun
    · rw [hps]
      simp

/-- Closing a write handle on a pipe removes exactly that table entry
and decrements the pipe's writer count, leaving the buffer intact. -/
theorem closeHandle_write {h p : Nat} {fl : Bool} {s : SysState}
    {buf : List Nat} {w : Nat}
    (hh : alookup h s.handles = some ⟨.pipeWrite p, fl⟩)
    (hp : alookup p s.pipes = some ⟨buf, w⟩) :
    (closeHandle h s).handles = aremove h s.handles ∧
      (closeHandle h s).streams = s.streams ∧
      alookup p (closeHandle h s).pipes = some ⟨buf, w - 1⟩ := by
  unfold closeHandle
  rw [hh]
  refine ⟨rfl, rfl, ?_⟩
  simp only
  rw [alookup_aupdate_self, hp]
  rfl

/-! ### Explicit success and failure states of the two strategies -/

/-- On success, the atomic strategy yields exactly: two fresh
non-inheritable handles on a fresh kernel pipe with empty buffer and one
open writer, appended to an otherwise untouched state. -/
theorem atomicPipe_ok (o : Oracle) (s : SysState) (hWF : WF s)
    (hc : o.createErr = none) :
    atomicPipe o s =
      (.ok ⟨s.nextHandle, s.nextHandle + 1⟩,
        { s with
            handles := s.handles ++
              [(s.nextHandle, ⟨.pipeRead s.nextPipe, false⟩),
               (s.nextHandle + 1, ⟨.pipeWrite s.nextPipe, false⟩)],
            pipes := s.pipes ++ [(s.nextPipe, ⟨[], 1⟩)],
            nextHandle := s.nextHandle + 2,
            nextPipe := s.nextPipe + 1 },
        [.pipeAtomic]) := by
  obtain ⟨hH, hP⟩ := hWF
  have hpfresh : alookup s.nextPipe s.pipes = none :=
    alookup_none_of_all_lt hP le_rfl
  have UP : ∀ (f : PipeObj → PipeObj) (m : List (Nat × PipeObj)),
      aupdate s.nextPipe f (s.pipes ++ m) = s.pipes ++ aupdate s.nextPipe f m :=
    fun f m => aupdate_fresh_append f m hpfresh
  unfold atomicPipe allocHandle
  rw [hc]
  simp only [UP, aupdate, if_pos rfl, List.append_assoc, List.cons_append,
    List.nil_append]
  simp

/-- On success, the duplicate-then-close strategy yields exactly: the
two duplicated non-inheritable handles on the fresh kernel pipe (empty
buffer, one open writer), the inheritable originals closed, the rest of
the state untouched. -/
theorem dupClosePipe_ok (o : Oracle) (s : SysState) (hWF : WF s)
    (hc : o.createErr = none) (hdr : o.dupReadErr = none)
    (hdw : o.dupWriteErr = none) :
    dupClosePipe o s =
      (.ok ⟨s.nextHandle + 2, s.nextHandle + 3⟩,
        { s with
            handles := s.handles ++
              [(s.nextHandle + 2, ⟨.pipeRead s.nextPipe, false⟩),
               (s.nextHandle + 3, ⟨.pipeWrite s.nextPipe, false⟩)],
            pipes := s.pipes ++ [(s.nextPipe, ⟨[], 1⟩)],
            nextHandle := s.nextHandle + 4,
            nextPipe := s.nextPipe + 1 },
        [.pipeRaw, .dup s.nextHandle, .dup (s.nextHandle + 1),
         .close s.nextHandle o.closeErr.isSome,
         .close (s.nextHandle + 1) o.closeErr.isSome]) := by
  obtain ⟨hH, hP⟩ := hWF
  have hpfresh : alookup s.nextPipe s.pipes = none :=
    alookup_none_of_all_lt hP le_rfl
  have h0 : alookup s.nextHandle s.handles = none :=
    alookup_none_of_all_lt hH le_rfl
  have h1 : alookup (s.nextHandle + 1) s.handles = none :=
    alookup_none_of_all_lt hH (by omega)
  have UP : ∀ (f : PipeObj → PipeObj) (m : List (Nat × PipeObj)),
      aupdate s.nextPipe f (s.pipes ++ m) = s.pipes ++ aupdate s.nextPipe f m :=
    fun f m => aupdate_fresh_append f m hpfresh
  have L0 : ∀ m : List (Nat × HEntry),
      alookup s.nextHandle (s.handles ++ m) = alookup s.nextHandle m :=
    fun m => alookup_append_right m h0
  have L1 : ∀ m : List (Nat × HEntry),
      alookup (s.nextHandle + 1) (s.handles ++ m) = alookup (s.nextHandle + 1) m :=
    fun m => alookup_append_right m h1
  have R0 : ∀ m : List (Nat × HEntry),
      aremove s.nextHandle (s.handles ++ m) = s.handles ++ aremove s.nextHandle m :=
    fun m => aremove_fresh_append m h0
  have R1 : ∀ m : List (Nat × HEntry),
      aremove (s.nextHandle + 1) (s.handles ++ m) =
        s.handles ++ aremove (s.nextHandle + 1) m :=
    fun m => aremove_fresh_append m h1
  have hne1 : s.nextHandle ≠ s.nextHandle + 1 := by omega
  unfold dupClosePipe allocHandle closeHandle
  rw [hc, hdr, hdw]
  simp [UP, L0, L1, R0, R1, aupdate, aremove, alookup, hne1]

/-- A failed atomic create leaves the state untouched. -/
theorem atomicPipe_err (o : Oracle) (s : SysState) (e : OsError)
    (hc : o.createErr = some e) :
    atomicPipe o s = (.error e, s, [.pipeAtomic]) := by
  unfold atomicPipe
  rw [hc]

/-- A failed raw pipe creation leaves the state untouched. -/
theorem dupClosePipe_err_create (o : Oracle) (s : SysState) (e : OsError)
    (hc : o.createErr = some e) :
    dupClosePipe o s = (.error e, s, [.pipeRaw]) := by
  unfold dupClosePipe
  rw [hc]

/-- When duplicating the read endpoint fails, both inheritable originals
are closed before the duplication error is returned: the handle table is
exactly the original one. -/
theorem dupClosePipe_err_dupRead (o : Oracle) (s : SysState) (e : OsError)
    (hWF : WF s) (hc : o.createErr = none) (hdr : o.dupReadErr = some e) :
    dupClosePipe o s =
      (.error e,
        { s with pipes := s.pipes ++ [(s.nextPipe, ⟨[], 0⟩)],
                 nextHandle := s.nextHandle + 2,
                 nextPipe := s.nextPipe + 1 },
        [.pipeRaw, .dup s.nextHandle,
         .close s.nextHandle o.closeErr.isSome,
         .close (s.nextHandle + 1) o.closeErr.isSome]) := by
  obtain ⟨hH, hP⟩ := hWF
  have hpfresh : alookup s.nextPipe s.pipes = none :=
    alookup_none_of_all_lt hP le_rfl
  have h0 : alookup s.nextHandle s.handles = none :=
    alookup_none_of_all_lt hH le_rfl
  have h1 : alookup (s.nextHandle + 1) s.handles = none :=
    alookup_none_of_all_lt hH (by omega)
  have UP : ∀ (f : PipeObj → PipeObj) (m : List (Nat × PipeObj)),
      aupdate s.nextPipe f (s.pipes ++ m) = s.pipes ++ aupdate s.nextPipe f m :=
    fun f m => aupdate_fresh_append f m hpfresh
  have L0 : ∀ m : List (Nat × HEntry),
      alookup s.nextHandle (s.handles ++ m) = alookup s.nextHandle m :=
    fun m => alookup_append_right m h0
  have L1 : ∀ m : List (Nat × HEntry),
      alookup (s.nextHandle + 1) (s.handles ++ m) = alookup (s.nextHandle + 1) m :=
    fun m => alookup_append_right m h1
  have R0 : ∀ m : List (Nat × HEntry),
      aremove s.nextHandle (s.handles ++ m) = s.handles ++ aremove s.nextHandle m :=
    fun m => aremove_fresh_append m h0
  have R1 : ∀ m : List (Nat × HEntry),
      aremove (s.nextHandle + 1) (s.handles ++ m) =
        s.handles ++ aremove (s.nextHandle + 1) m :=
    fun m => aremove_fresh_append m h1
  have hne1 : s.nextHandle ≠ s.nextHandle + 1 := by omega
  unfold dupClosePipe allocHandle closeHandle
  rw [hc, hdr]
  simp [UP, L0, L1, R0, R1, aupdate, aremove, alookup, hne1]

/-- When duplicating the write endpoint fails, the already-duplicated
read handle and both inheritable originals are all closed before the
duplication error is returned: the handle table is exactly the original
one. -/
theorem dupClosePipe_err_dupWrite (o : Oracle) (s : SysState) (e : OsError)
    (hWF : WF s) (hc : o.createErr = none) (hdr : o.dupReadErr = none)
    (hdw : o.dupWriteErr = some e) :
    dupClosePipe o s =
      (.error e,
        { s with pipes := s.pipes ++ [(s.nextPipe, ⟨[], 0⟩)],
                 nextHandle := s.nextHandle + 3,
                 nextPipe := s.nextPipe + 1 },
        [.pipeRaw, .dup s.nextHandle, .dup (s.nextHandle + 1),
         .close s.nextHandle o.closeErr.isSome,
         .close (s.nextHandle + 1) o.closeErr.isSome,
         .close (s.nextHandle + 2) o.closeErr.isSome]) := by
  obtain ⟨hH, hP⟩ := hWF
  have hpfresh : alookup s.nextPipe s.pipes = none :=
    alookup_none_of_all_lt hP le_rfl
  have h0 : alookup s.nextHandle s.handles = none :=
    alookup_none_of_all_lt hH le_rfl
  have h1 : alookup (s.nextHandle + 1) s.handles = none :=
    alookup_none_of_all_lt hH (by omega)
  have h2 : alookup (s.nextHandle + 2) s.handles = none :=
    alookup_none_of_all_lt hH (by omega)
  have UP : ∀ (f : PipeObj → PipeObj) (m : List (Nat × PipeObj)),
      aupdate s.nextPipe f (s.pipes ++ m) = s.pipes ++ aupdate s.nextPipe f m :=
    fun f m => aupdate_fresh_append f m hpfresh
  have L0 : ∀ m : List (Nat × HEntry),
      alookup s.nextHandle (s.handles ++ m) = alookup s.nextHandle m :=
    fun m => alookup_append_right m h0
  have L1 : ∀ m : List (Nat × HEntry),
      alookup (s.nextHandle + 1) (s.handles ++ m) = alookup (s.nextHandle + 1) m :=
    fun m => alookup_append_right m h1
  have L2 : ∀ m : List (Nat × HEntry),
      alookup (s.nextHandle + 2) (s.handles ++ m) = alookup (s.nextHandle + 2) m :=
    fun m => alookup_append_right m h2
  have R0 : ∀ m : List (Nat × HEntry),
      aremove s.nextHandle (s.handles ++ m) = s.handles ++ aremove s.nextHandle m :=
    fun m => aremove_fresh_append m h0
  have R1 : ∀ m : List (Nat × HEntry),
      aremove (s.nextHandle + 1) (s.handles ++ m) =
        s.handles ++ aremove (s.nextHandle + 1) m :=
    fun m => aremove_fresh_append m h1
  have R2 : ∀ m : List (Nat × HEntry),
      aremove (s.nextHandle + 2) (s.handles ++ m) =
        s.handles ++ aremove (s.nextHandle + 2) m :=
    fun m => aremove_fresh_append m h2
  have hne1 : s.nextHandle ≠ s.nextHandle + 1 := by omega
  have hne2 : s.nextHandle ≠ s.nextHandle + 2 := by omega
  have hne12 : s.nextHandle + 1 ≠ s.nextHandle + 2 := by omega
  unfold dupClosePipe allocHandle closeHandle
  rw [hc, hdr, hdw]
  simp [UP, L0, L1, L2, R0, R1, R2, aupdate, aremove, alookup, hne1, hne2, hne12]

theorem alookup_none_of_all_ge {α : Type} {l : List (Nat × α)} {n k : Nat}
    (hall : (l.all fun e => n ≤ e.1) = true) (hk : k < n) :
    alookup k l = none := by
  induction l with
  | nil => rfl
  | cons e t ih =>
    simp only [List.all_cons, Bool.and_eq_true, decide_eq_true_eq] at hall
    have he : e.1 ≠ k := by omega
    simp only [alookup, he, if_false]
    exact ih hall.2

/-- Building a `PipeSpec` for a state of the shape both strategies
produce on success. -/
theorem pipeSpec_build (s : SysState) (hWF : WF s) (a b nh : Nat)
    (ha : s.nextHandle ≤ a) (hab : a < b) :
    PipeSpec s ⟨a, b⟩
      { s with
          handles := s.handles ++
            [(a, ⟨.pipeRead s.nextPipe, false⟩),
             (b, ⟨.pipeWrite s.nextPipe, false⟩)],
          pipes := s.pipes ++ [(s.nextPipe, ⟨[], 1⟩)],
          nextHandle := nh,
          nextPipe := s.nextPipe + 1 } := by
  obtain ⟨hH, hP⟩ := hWF
  have hpfresh : alookup s.nextPipe s.pipes = none :=
    alookup_none_of_all_lt hP le_rfl
  have hafresh : alookup a s.handles = none :=
    alookup_none_of_all_lt hH ha
  have hbfresh : alookup b s.handles = none :=
    alookup_none_of_all_lt hH (by omega)
  have hne : a ≠ b := by omega
  refine ⟨ha, show s.nextHandle ≤ b by omega, hne, ?_, ?_, ?_, ?_, ?_, ?_,
    rfl, rfl, rfl, rfl⟩
  · rw [alookup_append_right _ hafresh, alookup_cons_self]
  · rw [alookup_append_right _ hbfresh, alookup_cons_ne _ _ hne,
      alookup_cons_self]
  · rw [alookup_append_right _ hpfresh, alookup_cons_self]
  · intro k hk
    have hka : a ≠ k := by omega
    have hkb : b ≠ k := by omega
    cases hkl : alookup k s.handles with
    | some v => exact alookup_append_left _ hkl
    | none =>
      rw [alookup_append_right _ hkl, alookup_cons_ne _ _ hka,
        alookup_cons_ne _ _ hkb]
      rfl
  · simp only [inheritedHandles, List.filter_append, List.map_append]
    intro hmem
    rcases List.mem_append.mp hmem with hmem | hmem
    · exact not_mem_keys_filter hH ha _ hmem
    · simp [List.filter] at hmem
  · simp only [inheritedHandles, List.filter_append, List.map_append]
    intro hmem
    rcases List.mem_append.mp hmem with hmem | hmem
    · exact not_mem_keys_filter hH (by omega) _ hmem
    · simp [List.filter] at hmem

/-- Every successful call of the compile-time-selected `sys::pipe`
realizes the shared observable contract `PipeSpec`. -/
theorem sysPipe_ok (pl : Platform) (o : Oracle) (s : SysState) (hWF : WF s)
    (pr : Pair) (s' : SysState) (tr : List Syscall)
    (h : sysPipe pl o s = (.ok pr, s', tr)) : PipeSpec s pr s' := by
  cases pl with
  | unix =>
    rw [show sysPipe Platform.unix o s = atomicPipe o s from rfl] at h
    cases hc : o.createErr with
    | some e =>
      rw [atomicPipe_err o s e hc] at h
      simp at h
    | none =>
      rw [atomicPipe_ok o s hWF hc] at h
      simp only [Prod.mk.injEq, Except.ok.injEq] at h
      obtain ⟨hpr, hs', _⟩ := h
      subst hpr
      subst hs'
      exact pipeSpec_build s hWF s.nextHandle (s.nextHandle + 1)
        (s.nextHandle + 2) le_rfl (by omega)
  | windows =>
    rw [show sysPipe Platform.windows o s = dupClosePipe o s from rfl] at h
    cases hc : o.createErr with
    | some e =>
      rw [dupClosePipe_err_create o s e hc] at h
      simp at h
    | none =>
      cases hdr : o.dupReadErr with
      | some e =>
        rw [dupClosePipe_err_dupRead o s e hWF hc hdr] at h
        simp at h
      | none =>
        cases hdw : o.dupWriteErr with
        | some e =>
          rw [dupClosePipe_err_dupWrite o s e hWF hc hdr hdw] at h
          simp at h
        | none =>
          rw [dupClosePipe_ok o s hWF hc hdr hdw] at h
          simp only [Prod.mk.injEq, Except.ok.injEq] at h
          obtain ⟨hpr, hs', _⟩ := h
          subst hpr
          subst hs'
          exact pipeSpec_build s hWF (s.nextHandle + 2) (s.nextHandle + 3)
            (s.nextHandle + 4) (by omega) (by omega)

/-! ### Wrapping the parent's standard streams -/

/-- A successful duplication of a parent stream handle: the result is a
fresh handle with the same target and the inheritable flag clear; the
handle table is only extended, and streams and stdio designations are
untouched. -/
theorem parentDup_ok (hnd : Nat) (ent : HEntry) (o : Oracle) (s : SysState)
    (hh : alookup hnd s.handles = some ent) (hd : o.parentDupErr = none) :
    parentDup hnd o s =
      (.ok ⟨s.nextHandle⟩,
        { s with
            handles := s.handles ++ [(s.nextHandle, ⟨ent.target, false⟩)],
            pipes :=
              match ent.target with
              | .pipeWrite p =>
                aupdate p (fun po => ⟨po.buffer, po.writers + 1⟩) s.pipes
              | _ => s.pipes,
            nextHandle := s.nextHandle + 1 },
        [.dup hnd]) := by
  unfold parentDup allocHandle
  rw [hh, hd]

/-- A parent stream handle that is not open fails with the OS invalid
handle error and changes nothing. -/
theorem parentDup_badHandle (hnd : Nat) (o : Oracle) (s : SysState)
    (hh : alookup hnd s.handles = none) :
    parentDup hnd o s = (.error invalidHandleErr, s, []) := by
  unfold parentDup
  rw [hh]

/-- A failed duplication of a parent stream handle surfaces the OS
error unmodified and changes nothing. -/
theorem parentDup_dupErr (hnd : Nat) (ent : HEntry) (o : Oracle) (s : SysState)
    (e : OsError) (hh : alookup hnd s.handles = some ent)
    (hd : o.parentDupErr = some e) :
    parentDup hnd o s = (.error e, s, [.dup hnd]) := by
  unfold parentDup
  rw [hh, hd]

theorem alookup_some_key_lt {α : Type} {l : List (Nat × α)} {n k : Nat} {v : α}
    (hall : (l.all fun e => e.1 < n) = true) (h : alookup k l = some v) :
    k < n := by
  induction l with
  | nil => simp [alookup] at h
  | cons e t ih =>
    simp only [List.all_cons, Bool.and_eq_true, decide_eq_true_eq] at hall
    by_cases he : e.1 = k
    · omega
    · simp only [alookup, he, if_false] at h
      exact ih hall.2 h

theorem not_inherited_of_append {s' : SysState} {l : List (Nat × HEntry)}
    {n k : Nat} {t : Target}
    (hall : (l.all fun e => e.1 < n) = true) (hk : n ≤ k)
    (hs : s'.handles = l ++ [(k, ⟨t, false⟩)]) :
    k ∉ inheritedHandles s' := by
  unfold inheritedHandles
  rw [hs]
  simp only [List.filter_append, List.map_append]
  intro hmem
  rcases List.mem_append.mp hmem with hmem | hmem
  · exact not_mem_keys_filter hall hk _ hmem
  · simp [List.filter] at hmem

/-- Inversion of a successful parent-stream duplication. -/
theorem parentDup_ok_inv (hnd : Nat) (o : Oracle) (s : SysState)
    (d : StdioHandle) (s' : SysState) (tr : List Syscall)
    (h : parentDup hnd o s = (.ok d, s', tr)) :
    ∃ ent, alookup hnd s.handles = some ent ∧ o.parentDupErr = none ∧
      d = ⟨s.nextHandle⟩ ∧
      s'.handles = s.handles ++ [(s.nextHandle, ⟨ent.target, false⟩)] ∧
      s'.streams = s.streams ∧ s'.stdinH = s.stdinH ∧
      s'.stdoutH = s.stdoutH ∧ s'.stderrH = s.stderrH ∧
      s'.nextHandle = s.nextHandle + 1 ∧ tr = [.dup hnd] := by
  cases hh : alookup hnd s.handles with
  | none =>
    rw [parentDup_badHandle hnd o s hh] at h
    simp at h
  | some ent =>
    cases hd : o.parentDupErr with
    | some e =>
      rw [parentDup_dupErr hnd ent o s e hh hd] at h
      simp at h
    | none =>
      rw [parentDup_ok hnd ent o s hh hd] at h
      simp only [Prod.mk.injEq, Except.ok.injEq] at h
      obtain ⟨hd', hs', htr⟩ := h
      subst hd'
      subst htr
      refine ⟨ent, rfl, rfl, rfl, ?_, ?_, ?_, ?_, ?_, ?_, rfl⟩ <;> rw [← hs']

/-! ### Claims -/

/-- C1: every successful `pipe` call returns a pair neither of whose
endpoints is inheritable by a child spawned after the call, and every
successful `parent_stdin`/`parent_stdout`/`parent_stderr` call returns
a handle that is likewise not inheritable. -/
theorem claim_C1_non_inheritable (pl : Platform) (o : Oracle) (s : SysState)
    (hWF : WF s) :
    (∀ pr s' tr, pipe pl o s = (.ok pr, s', tr) →
      pr.read ∉ inheritedHandles s' ∧ pr.write ∉ inheritedHandles s') ∧
    (∀ d s' tr, parent_stdin pl o s = (.ok d, s', tr) →
      d.handle ∉ inheritedHandles s') ∧
    (∀ d s' tr, parent_stdout pl o s = (.ok d, s', tr) →
      d.handle ∉ inheritedHandles s') ∧
    (∀ d s' tr, parent_stderr pl o s = (.ok d, s', tr) →
      d.handle ∉ inheritedHandles s') := by
  obtain ⟨hH, hP⟩ := hWF
  have hparent : ∀ hnd d s' tr, parentDup hnd o s = (.ok d, s', tr) →
      d.handle ∉ inheritedHandles s' := by
    intro hnd d s' tr h
    obtain ⟨ent, _, _, hd, hs', _⟩ := parentDup_ok_inv hnd o s d s' tr h
    subst hd
    exact not_inherited_of_append hH le_rfl hs'
  refine ⟨?_, hparent s.stdinH, hparent s.stdoutH, hparent s.stderrH⟩
  intro pr s' tr h
  have hs := sysPipe_ok pl o s ⟨hH, hP⟩ pr s' tr h
  exact ⟨hs.read_ni, hs.write_ni⟩

/-- C2: for every byte-chunk sequence `B` (including the empty one)
written in order to the write endpoint of a successfully created pair
and the write endpoint then closed, reading the read endpoint to
end-of-stream yields exactly the concatenation of `B`, for every read
chunk size. -/
theorem claim_C2_roundtrip (pl : Platform) (o : Oracle) (s : SysState)
    (hWF : WF s) (pr : Pair) (s' : SysState) (tr : List Syscall)
    (h : pipe pl o s = (.ok pr, s', tr)) (B : List (List Nat)) :
    ∃ s2, writeAll pr.write B s' = some s2 ∧
      ∀ c, readEndToEnd c pr.read (closeHandle pr.write s2) = some B.flatten := by
  have hs := sysPipe_ok pl o s hWF pr s' tr h
  obtain ⟨s2, hrun, hhs, hss, hps⟩ :=
    writeAll_pipe B s' [] 1 hs.write_entry hs.pipe_obj
  rw [List.nil_append] at hps
  refine ⟨s2, hrun, fun c => ?_⟩
  have hw2 : alookup pr.write s2.handles =
      some ⟨.pipeWrite s.nextPipe, false⟩ := by
    rw [hhs]
    exact hs.write_entry
  obtain ⟨hch, hcs, hcp⟩ := closeHandle_write hw2 hps
  have hr2 : alookup pr.read (closeHandle pr.write s2).handles =
      some ⟨.pipeRead s.nextPipe, false⟩ := by
    rw [hch, alookup_aremove_ne _ hs.ne, hhs]
    exact hs.read_entry
  unfold readEndToEnd
  simp only [hr2, hcp]
  exact pipeReadToEnd_writers_zero c _ rfl

/-- C6: once the write endpoint and all duplicates of it are closed
(writer count zero), reading the read endpoint returns end-of-stream
with the remaining buffered bytes instead of blocking. -/
theorem claim_C6_eof_when_writers_closed (c hnd p : Nat) (fl : Bool)
    (s : SysState) (po : PipeObj)
    (hh : alookup hnd s.handles = some ⟨.pipeRead p, fl⟩)
    (hp : alookup p s.pipes = some po) (hw : po.writers = 0) :
    readEndToEnd c hnd s = some po.buffer := by
  unfold readEndToEnd
  simp only [hh, hp]
  exact pipeReadToEnd_writers_zero c po hw

/-- C3: every failure of create-pipe-pair leaves the handle table
exactly as it was (no handle leak, under either strategy), the error
returned is the error of the first failing creation/duplication step,
and the outcome is independent of whether the cleanup close calls
themselves fail. -/
theorem claim_C3_no_leak_no_mask (o : Oracle) (s : SysState) (hWF : WF s) :
    (∀ e s' tr, dupClosePipe o s = (.error e, s', tr) →
      s'.handles = s.handles ∧ s'.streams = s.streams ∧
        (o.createErr = some e ∨
          (o.createErr = none ∧ o.dupReadErr = some e) ∨
          (o.createErr = none ∧ o.dupReadErr = none ∧
            o.dupWriteErr = some e))) ∧
    (∀ e s' tr, atomicPipe o s = (.error e, s', tr) →
      s'.handles = s.handles ∧ s'.streams = s.streams ∧
        o.createErr = some e) ∧
    (∀ o' : Oracle, o'.createErr = o.createErr →
      o'.dupReadErr = o.dupReadErr → o'.dupWriteErr = o.dupWriteErr →
      (dupClosePipe o' s).1 = (dupClosePipe o s).1 ∧
        (dupClosePipe o' s).2.1 = (dupClosePipe o s).2.1) := by
  refine ⟨?_, ?_, ?_⟩
  · intro e s' tr h
    cases hc : o.createErr with
    | some e0 =>
      rw [dupClosePipe_err_create o s e0 hc] at h
      simp only [Prod.mk.injEq, Except.error.injEq] at h
      obtain ⟨he, hs', _⟩ := h
      subst hs'
      exact ⟨rfl, rfl, Or.inl (by rw [he])⟩
    | none =>
      cases hdr : o.dupReadErr with
      | some e0 =>
        rw [dupClosePipe_err_dupRead o s e0 hWF hc hdr] at h
        simp only [Prod.mk.injEq, Except.error.injEq] at h
        obtain ⟨he, hs', _⟩ := h
        subst hs'
        exact ⟨rfl, rfl, Or.inr (Or.inl ⟨rfl, by rw [he]⟩)⟩
      | none =>
        cases hdw : o.dupWriteErr with
        | some e0 =>
          rw [dupClosePipe_err_dupWrite o s e0 hWF hc hdr hdw] at h
          simp only [Prod.mk.injEq, Except.error.injEq] at h
          obtain ⟨he, hs', _⟩ := h
          subst hs'
          exact ⟨rfl, rfl, Or.inr (Or.inr ⟨rfl, rfl, by rw [he]⟩)⟩
        | none =>
          rw [dupClosePipe_ok o s hWF hc hdr hdw] at h
          simp at h
  · intro e s' tr h
    cases hc : o.createErr with
    | some e0 =>
      rw [atomicPipe_err o s e0 hc] at h
      simp only [Prod.mk.injEq, Except.error.injEq] at h
      obtain ⟨he, hs', _⟩ := h
      subst hs'
      exact ⟨rfl, rfl, by rw [he]⟩
    | none =>
      rw [atomicPipe_ok o s hWF hc] at h
      simp at h
  · intro o' h1 h2 h3
    cases hc : o.createErr with
    | some e0 =>
      rw [dupClosePipe_err_create o s e0 hc,
        dupClosePipe_err_create o' s e0 (h1.trans hc)]
      exact ⟨rfl, rfl⟩
    | none =>
      cases hdr : o.dupReadErr with
      | some e0 =>
        rw [dupClosePipe_err_dupRead o s e0 hWF hc hdr,
          dupClosePipe_err_dupRead o' s e0 hWF (h1.trans hc) (h2.trans hdr)]
        exact ⟨rfl, rfl⟩
      | none =>
        cases hdw : o.dupWriteErr with
        | some e0 =>
          rw [dupClosePipe_err_dupWrite o s e0 hWF hc hdr hdw,
            dupClosePipe_err_dupWrite o' s e0 hWF (h1.trans hc)
              (h2.trans hdr) (h3.trans hdw)]
          exact ⟨rfl, rfl⟩
        | none =>
          rw [dupClosePipe_ok o s hWF hc hdr hdw,
            dupClosePipe_ok o' s hWF (h1.trans hc) (h2.trans hdr)
              (h3.trans hdw)]
          exact ⟨rfl, rfl⟩

/-- C7: both platform strategies satisfy the same observable contract
(`PipeSpec` on success, no handle leak on failure), and the strategy
is chosen per build target by the `cfg` conditions, not by runtime
branching: for a fixed platform `sys::pipe` is one strategy
uniformly. -/
theorem claim_C7_same_contract_compile_time :
    MeetsPipeContract atomicPipe ∧ MeetsPipeContract dupClosePipe ∧
    (∀ pl : Platform, sysPipe pl = atomicPipe ∨ sysPipe pl = dupClosePipe) ∧
    (∀ w : Bool,
      (cfgNotWindows w = true ∧ selectPlatform w = .unix ∧
        sysPipe (selectPlatform w) = atomicPipe) ∨
      (cfgWindows w = true ∧ selectPlatform w = .windows ∧
        sysPipe (selectPlatform w) = dupClosePipe)) := by
  refine ⟨?_, ?_, ?_, ?_⟩
  · intro o s hWF
    constructor
    · intro pr s' tr h
      exact sysPipe_ok .unix o s hWF pr s' tr h
    · intro e s' tr h
      cases hc : o.createErr with
      | some e0 =>
        rw [atomicPipe_err o s e0 hc] at h
        simp only [Prod.mk.injEq, Except.error.injEq] at h
        obtain ⟨_, hs', _⟩ := h
        subst hs'
        exact ⟨rfl, rfl⟩
      | none =>
        rw [atomicPipe_ok o s hWF hc] at h
        simp at h
  · intro o s hWF
    constructor
    · intro pr s' tr h
      exact sysPipe_ok .windows o s hWF pr s' tr h
    · intro e s' tr h
      cases hc : o.createErr with
      | some e0 =>
        rw [dupClosePipe_err_create o s e0 hc] at h
        simp only [Prod.mk.injEq, Except.error.injEq] at h
        obtain ⟨_, hs', _⟩ := h
        subst hs'
        exact ⟨rfl, rfl⟩
      | none =>
        cases hdr : o.dupReadErr with
        | some e0 =>
          rw [dupClosePipe_err_dupRead o s e0 hWF hc hdr] at h
          simp only [Prod.mk.injEq, Except.error.injEq] at h
          obtain ⟨_, hs', _⟩ := h
          subst hs'
          exact ⟨rfl, rfl⟩
        | none =>
          cases hdw : o.dupWriteErr with
          | some e0 =>
            rw [dupClosePipe_err_dupWrite o s e0 hWF hc hdr hdw] at h
            simp only [Prod.mk.injEq, Except.error.injEq] at h
            obtain ⟨_, hs', _⟩ := h
            subst hs'
            exact ⟨rfl, rfl⟩
          | none =>
            rw [dupClosePipe_ok o s hWF hc hdr hdw] at h
            simp at h
  · intro pl
    cases pl
    · exact Or.inl rfl
    · exact Or.inr rfl
  · intro w
    cases w
    · exact Or.inl ⟨rfl, rfl, rfl⟩
    · exact Or.inr ⟨rfl, rfl, rfl⟩

/-- C5: the public contract: `pipe` returns a `Result` whose success
value exposes two distinct owned handles, a read end and a write end of
the same kernel pipe; the three `parent_*` operations return a
`Result` whose success value is one fresh owned stdio handle; and
`stdio_from_file` takes an owned handle and returns a `StdioHandle`
directly — total, not a `Result`. -/
theorem claim_C5_public_contract (pl : Platform) (o : Oracle) (s : SysState)
    (hWF : WF s) :
    (∀ pr s' tr, pipe pl o s = (.ok pr, s', tr) →
      pr.read ≠ pr.write ∧
        alookup pr.read s'.handles = some ⟨.pipeRead s.nextPipe, false⟩ ∧
        alookup pr.write s'.handles = some ⟨.pipeWrite s.nextPipe, false⟩) ∧
    (∀ d s' tr, parent_stdin pl o s = (.ok d, s', tr) →
      d = ⟨s.nextHandle⟩) ∧
    (∀ d s' tr, parent_stdout pl o s = (.ok d, s', tr) →
      d = ⟨s.nextHandle⟩) ∧
    (∀ d s' tr, parent_stderr pl o s = (.ok d, s', tr) →
      d = ⟨s.nextHandle⟩) ∧
    (∀ h, stdio_from_file pl h s = (⟨h⟩, s, [])) := by
  have hparent : ∀ hnd d s' tr, parentDup hnd o s = (.ok d, s', tr) →
      d = (⟨s.nextHandle⟩ : StdioHandle) := by
    intro hnd d s' tr h
    obtain ⟨_, _, _, hd, _⟩ := parentDup_ok_inv hnd o s d s' tr h
    exact hd
  refine ⟨?_, hparent s.stdinH, hparent s.stdoutH, hparent s.stderrH,
    fun h => rfl⟩
  intro pr s' tr h
  have hs := sysPipe_ok pl o s hWF pr s' tr h
  exact ⟨hs.ne, hs.read_entry, hs.write_entry⟩

/-- C8: every OS-level failure is surfaced immediately as the
operation's error result, carrying the underlying OS error unmodified
(the error of the first failing step, or the invalid-handle error when
a parent stream handle is not open); and no creation or duplication
syscall is ever retried: the non-cleanup syscalls of every trace are
pairwise distinct. -/
theorem claim_C8_errors_surfaced (pl : Platform) (o : Oracle) (s : SysState)
    (hWF : WF s) :
    (∀ e s' tr, pipe pl o s = (.error e, s', tr) →
      o.createErr = some e ∨
        (o.createErr = none ∧ o.dupReadErr = some e) ∨
        (o.createErr = none ∧ o.dupReadErr = none ∧
          o.dupWriteErr = some e)) ∧
    (∀ r s' tr, pipe pl o s = (r, s', tr) → (attempts tr).Nodup) ∧
    (∀ hnd e s' tr, parentDup hnd o s = (.error e, s', tr) →
      (alookup hnd s.handles = none ∧ e = invalidHandleErr) ∨
        o.parentDupErr = some e) ∧
    (∀ hnd r s' tr, parentDup hnd o s = (r, s', tr) →
      (attempts tr).Nodup) := by
  refine ⟨?_, ?_, ?_, ?_⟩
  · intro e s' tr h
    cases pl with
    | unix =>
      rw [show pipe Platform.unix o s = atomicPipe o s from rfl] at h
      cases hc : o.createErr with
      | some e0 =>
        rw [atomicPipe_err o s e0 hc] at h
        simp only [Prod.mk.injEq, Except.error.injEq] at h
        exact Or.inl (by rw [h.1])
      | none =>
        rw [atomicPipe_ok o s hWF hc] at h
        simp at h
    | windows =>
      rw [show pipe Platform.windows o s = dupClosePipe o s from rfl] at h
      cases hc : o.createErr with
      | some e0 =>
        rw [dupClosePipe_err_create o s e0 hc] at h
        simp only [Prod.mk.injEq, Except.error.injEq] at h
        exact Or.inl (by rw [h.1])
      | none =>
        cases hdr : o.dupReadErr with
        | some e0 =>
          rw [dupClosePipe_err_dupRead o s e0 hWF hc hdr] at h
          simp only [Prod.mk.injEq, Except.error.injEq] at h
          exact Or.inr (Or.inl ⟨rfl, by rw [h.1]⟩)
        | none =>
          cases hdw : o.dupWriteErr with
          | some e0 =>
            rw [dupClosePipe_err_dupWrite o s e0 hWF hc hdr hdw] at h
            simp only [Prod.mk.injEq, Except.error.injEq] at h
            exact Or.inr (Or.inr ⟨rfl, rfl, by rw [h.1]⟩)
          | none =>
            rw [dupClosePipe_ok o s hWF hc hdr hdw] at h
            simp at h
  · intro r s' tr h
    cases pl with
    | unix =>
      rw [show pipe Platform.unix o s = atomicPipe o s from rfl] at h
      cases hc : o.createErr with
      | some e0 =>
        rw [atomicPipe_err o s e0 hc] at h
        simp only [Prod.mk.injEq] at h
        obtain ⟨_, _, htr⟩ := h
        subst htr
        simp [attempts]
      | none =>
        rw [atomicPipe_ok o s hWF hc] at h
        simp only [Prod.mk.injEq] at h
        obtain ⟨_, _, htr⟩ := h
        subst htr
        simp [attempts]
    | windows =>
      rw [show pipe Platform.windows o s = dupClosePipe o s from rfl] at h
      cases hc : o.createErr with
      | some e0 =>
        rw [dupClosePipe_err_create o s e0 hc] at h
        simp only [Prod.mk.injEq] at h
        obtain ⟨_, _, htr⟩ := h
        subst htr
        simp [attempts]
      | none =>
        cases hdr : o.dupReadErr with
        | some e0 =>
          rw [dupClosePipe_err_dupRead o s e0 hWF hc hdr] at h
          simp only [Prod.mk.injEq] at h
          obtain ⟨_, _, htr⟩ := h
          subst htr
          simp [attempts]
        | none =>
          cases hdw : o.dupWriteErr with
          | some e0 =>
            rw [dupClosePipe_err_dupWrite o s e0 hWF hc hdr hdw] at h
            simp only [Prod.mk.injEq] at h
            obtain ⟨_, _, htr⟩ := h
            subst htr
            simp [attempts]
          | none =>
            rw [dupClosePipe_ok o s hWF hc hdr hdw] at h
            simp only [Prod.mk.injEq] at h
            obtain ⟨_, _, htr⟩ := h
            subst htr
            simp [attempts]
  · intro hnd e s' tr h
    cases hh : alookup hnd s.handles with
    | none =>
      rw [parentDup_badHandle hnd o s hh] at h
      simp only [Prod.mk.injEq, Except.error.injEq] at h
      exact Or.inl ⟨rfl, h.1.symm⟩
    | some ent =>
      cases hd : o.parentDupErr with
      | some e0 =>
        rw [parentDup_dupErr hnd ent o s e0 hh hd] at h
        simp only [Prod.mk.injEq, Except.error.injEq] at h
        exact Or.inr (by rw [h.1])
      | none =>
        rw [parentDup_ok hnd ent o s hh hd] at h
        simp at h
  · intro hnd r s' tr h
    cases hh : alookup hnd s.handles with
    | none =>
      rw [parentDup_badHandle hnd o s hh] at h
      simp only [Prod.mk.injEq] at h
      obtain ⟨_, _, htr⟩ := h
      subst htr
      simp [attempts]
    | some ent =>
      cases hd : o.parentDupErr with
      | some e0 =>
        rw [parentDup_dupErr hnd ent o s e0 hh hd] at h
        simp only [Prod.mk.injEq] at h
        obtain ⟨_, _, htr⟩ := h
        subst htr
        simp [attempts]
      | none =>
        rw [parentDup_ok hnd ent o s hh hd] at h
        simp only [Prod.mk.injEq] at h
        obtain ⟨_, _, htr⟩ := h
        subst htr
        simp [attempts]

/-- C4: `stdio_from_file` has no failure path on any platform and any
input: it is a pure ownership transfer performing no syscall — the
result wraps exactly the input handle, the OS state is unchanged (no
duplicate handle exists, so the resource is owned and released exactly
once), and the syscall trace is empty. -/
theorem claim_C4_stdio_from_file_total (pl : Platform) (h : Nat)
    (s : SysState) :
    stdio_from_file pl h s = (⟨h⟩, s, []) ∧
      (stdio_from_file pl h s).1.handle = h ∧
      (stdio_from_file pl h s).2.1.handles = s.handles ∧
      (stdio_from_file pl h s).2.2 = [] :=
  ⟨rfl, rfl, rfl, rfl⟩

/-- C9: `parent_stdout` and `parent_stderr` return a fresh
non-inheritable duplicate of the parent's stream handle; the parent's
own entry (flag included), every pre-existing handle, and all stream
objects are untouched, and a subsequent parent write through its own
stream handle produces exactly the stream contents it would have
produced before the call. -/
theorem claim_C9_parent_duplicate_frame (pl : Platform) (o : Oracle)
    (s : SysState) (hWF : WF s) :
    (∀ d s' tr, parent_stdout pl o s = (.ok d, s', tr) →
      ParentFrame s s.stdoutH d s') ∧
    (∀ d s' tr, parent_stderr pl o s = (.ok d, s', tr) →
      ParentFrame s s.stderrH d s') := by
  obtain ⟨hH, hP⟩ := hWF
  have hgen : ∀ hnd d s' tr, parentDup hnd o s = (.ok d, s', tr) →
      ParentFrame s hnd d s' := by
    intro hnd d s' tr h
    obtain ⟨ent, hh, _, hd, hs', hss, _, _, _, _, _⟩ :=
      parentDup_ok_inv hnd o s d s' tr h
    subst hd
    have hlt : hnd < s.nextHandle := alookup_some_key_lt hH hh
    have hself : alookup hnd s'.handles = alookup hnd s.handles := by
      rw [hs', alookup_append_left _ hh, hh]
    refine ⟨hself, hss, show s.nextHandle ≠ hnd by omega, ?_, ?_, ?_⟩
    · intro ent' hh'
      have : ent' = ent := by
        rw [hh] at hh'
        exact (Option.some.injEq .. ▸ hh').symm
      subst this
      rw [hs', alookup_append_right _ (alookup_none_of_all_lt hH le_rfl),
        alookup_cons_self]
    · intro k hk
      rw [hs']
      cases hkl : alookup k s.handles with
      | some v => exact alookup_append_left _ hkl
      | none =>
        rw [alookup_append_right _ hkl,
          alookup_cons_ne _ _ (by omega : s.nextHandle ≠ k)]
        rfl
    · intro bs s2 hw
      unfold writeVia at hw ⊢
      rw [hself, hh] at hw
      rw [hh]
      obtain ⟨tgt, inh⟩ := ent
      cases tgt with
      | pipeRead p => simp at hw
      | pipeWrite p =>
        simp only [Option.some.injEq] at hw
        subst hw
        exact ⟨_, rfl, by simp [hss]⟩
      | streamObj sid =>
        simp only [Option.some.injEq] at hw
        subst hw
        exact ⟨_, rfl, by simp [hss]⟩
  exact ⟨hgen s.stdoutH, hgen s.stderrH⟩

/-- C10: each of the five public functions of `src/lib.rs` is
extensionally equal to the corresponding function of the
compile-time-selected platform module `sys` (a pure delegation, adding
no logic of its own), and the `cfg` conditions `not(windows)` and
`windows` are exhaustive and mutually exclusive, so exactly one
platform module is compiled for every build target. -/
theorem claim_C10_delegation_cfg :
    (∀ pl o s, pipe pl o s = sysPipe pl o s) ∧
    (∀ pl o s, parent_stdin pl o s = sysParentStdin pl o s) ∧
    (∀ pl o s, parent_stdout pl o s = sysParentStdout pl o s) ∧
    (∀ pl o s, parent_stderr pl o s = sysParentStderr pl o s) ∧
    (∀ pl h s, stdio_from_file pl h s = sysStdioFromFile pl h s) ∧
    (∀ w : Bool,
      (cfgWindows w = true ∧ cfgNotWindows w = false) ∨
      (cfgWindows w = false ∧ cfgNotWindows w = true)) := by
  refine ⟨fun pl o s => rfl, fun pl o s => rfl, fun pl o s => rfl,
    fun pl o s => rfl, fun pl h s => rfl, fun w => ?_⟩
  cases w
  · exact Or.inr ⟨rfl, rfl⟩
  · exact Or.inl ⟨rfl, rfl⟩

/-- Witness for C1: on a concrete state, the concrete pipe endpoints
and a concrete parent stdout duplicate are not inheritable. -/
theorem claim_C1_witness :
    WF st0 ∧
      (3 ∉ inheritedHandles (pipe .unix okOracle st0).2.1 ∧
        4 ∉ inheritedHandles (pipe .unix okOracle st0).2.1) ∧
      3 ∉ inheritedHandles (parent_stdout .unix okOracle st0).2.1 :=
  ⟨by decide,
    (claim_C1_non_inheritable .unix okOracle st0 (by decide)).1 ⟨3, 4⟩
      (pipe .unix okOracle st0).2.1 (pipe .unix okOracle st0).2.2 rfl,
    (claim_C1_non_inheritable .unix okOracle st0 (by decide)).2.2.1 ⟨3⟩
      (parent_stdout .unix okOracle st0).2.1
      (parent_stdout .unix okOracle st0).2.2 rfl⟩

/-- Witness for C2: concrete bytes written to a concrete pipe are read
back exactly. -/
theorem claim_C2_witness :
    WF st0 ∧
      ∃ s2, writeAll 4 [[10, 11], [12]] (pipe .unix okOracle st0).2.1 =
          some s2 ∧
        ∀ c, readEndToEnd c 3 (closeHandle 4 s2) = some [10, 11, 12] :=
  ⟨by decide,
    claim_C2_roundtrip .unix okOracle st0 (by decide) ⟨3, 4⟩
      (pipe .unix okOracle st0).2.1 (pipe .unix okOracle st0).2.2 rfl
      [[10, 11], [12]]⟩

/-- Witness for C3: a concrete failed duplication leaves the concrete
handle table unchanged and reports the duplication error even though
the cleanup closes failed. -/
theorem claim_C3_witness :
    WF st0 ∧
      ((dupClosePipe dupFailOracle st0).2.1.handles = st0.handles ∧
        (dupClosePipe dupFailOracle st0).2.1.streams = st0.streams ∧
        (dupFailOracle.createErr = some 24 ∨
          (dupFailOracle.createErr = none ∧
            dupFailOracle.dupReadErr = some 24) ∨
          (dupFailOracle.createErr = none ∧
            dupFailOracle.dupReadErr = none ∧
            dupFailOracle.dupWriteErr = some 24))) :=
  ⟨by decide,
    (claim_C3_no_leak_no_mask dupFailOracle st0 (by decide)).1 24
      (dupClosePipe dupFailOracle st0).2.1
      (dupClosePipe dupFailOracle st0).2.2 rfl⟩

/-- Witness for C5: the concrete pipe pair exposes two distinct owned
handles of the two directions. -/
theorem claim_C5_witness :
    WF st0 ∧
      ((3 : Nat) ≠ 4 ∧
        alookup 3 (pipe .unix okOracle st0).2.1.handles =
          some ⟨.pipeRead 0, false⟩ ∧
        alookup 4 (pipe .unix okOracle st0).2.1.handles =
          some ⟨.pipeWrite 0, false⟩) :=
  ⟨by decide,
    (claim_C5_public_contract .unix okOracle st0 (by decide)).1 ⟨3, 4⟩
      (pipe .unix okOracle st0).2.1 (pipe .unix okOracle st0).2.2 rfl⟩

/-- Witness for C6: reading a concrete pipe with no open writer
returns exactly the buffered bytes instead of blocking. -/
theorem claim_C6_witness :
    alookup 0 stEof.handles = some ⟨.pipeRead 0, false⟩ ∧
      alookup 0 stEof.pipes = some ⟨[7, 8], 0⟩ ∧
      readEndToEnd 0 0 stEof = some [7, 8] :=
  ⟨rfl, rfl,
    claim_C6_eof_when_writers_closed 0 0 0 false stEof ⟨[7, 8], 0⟩ rfl rfl rfl⟩

/-- Witness for C7: both concrete strategy runs on the concrete state
satisfy the shared observable contract. -/
theorem claim_C7_witness :
    WF st0 ∧ PipeSpec st0 ⟨3, 4⟩ (atomicPipe okOracle st0).2.1 ∧
      PipeSpec st0 ⟨5, 6⟩ (dupClosePipe okOracle st0).2.1 :=
  ⟨by decide,
    (claim_C7_same_contract_compile_time.1 okOracle st0 (by decide)).1 ⟨3, 4⟩
      (atomicPipe okOracle st0).2.1 (atomicPipe okOracle st0).2.2 rfl,
    (claim_C7_same_contract_compile_time.2.1 okOracle st0 (by decide)).1 ⟨5, 6⟩
      (dupClosePipe okOracle st0).2.1 (dupClosePipe okOracle st0).2.2 rfl⟩

/-- Witness for C8: a concrete failed duplication surfaces exactly the
OS error of the failing step and attempts no syscall twice. -/
theorem claim_C8_witness :
    WF st0 ∧
      (dupFailOracle.createErr = some 24 ∨
        (dupFailOracle.createErr = none ∧
          dupFailOracle.dupReadErr = some 24) ∨
        (dupFailOracle.createErr = none ∧ dupFailOracle.dupReadErr = none ∧
          dupFailOracle.dupWriteErr = some 24)) ∧
      (attempts (pipe .windows dupFailOracle st0).2.2).Nodup :=
  ⟨by decide,
    (claim_C8_errors_surfaced .windows dupFailOracle st0 (by decide)).1 24
      (pipe .windows dupFailOracle st0).2.1
      (pipe .windows dupFailOracle st0).2.2 rfl,
    (claim_C8_errors_surfaced .windows dupFailOracle st0 (by decide)).2.1
      (pipe .windows dupFailOracle st0).1
      (pipe .windows dupFailOracle st0).2.1
      (pipe .windows dupFailOracle st0).2.2 rfl⟩

/-- Witness for C9: wrapping the concrete parent stdout satisfies the
frame conditions at the concrete state. -/
theorem claim_C9_witness :
    WF st0 ∧
      ParentFrame st0 st0.stdoutH ⟨3⟩ (parent_stdout .unix okOracle st0).2.1 :=
  ⟨by decide,
    (claim_C9_parent_duplicate_frame .unix okOracle st0 (by decide)).1 ⟨3⟩
      (parent_stdout .unix okOracle st0).2.1
      (parent_stdout .unix okOracle st0).2.2 rfl⟩

end OsPipe
